import Mathlib

/-
Shallow embedding of the application lifecycle coordinator of the go-core
repository (package app, file app.go): component registration with rollback
on start failure, a blocking run operation woken by a signal or by context
cancellation, cleanup of registered components in registration order, and a
timeout-bounded stop operation.

State is explicit (registered components, cancellation cause, the closing
channel flag, the forceful timeout); effects are recorded as an event trace.
Durations are nanoseconds, as in Go (time.Duration).
-/

namespace GoCore.App

/-- Component models the app.Component interface: a display name (the
fmt.Stringer), the outcome of its single Start call (none means success) and
the outcome of its Stop call (none means success). -/
structure Component where
  name : String
  startErr : Option String
  stopErr : Option String
  deriving DecidableEq, Repr

/-- Event records one observable effect of the coordinator: a component
lifecycle call, a structured log line, an effective context cancellation
(the first call of cancel, carrying the cause), the close of closingCh, or
a panic. -/
inductive Event where
  | startCalled (comp : String)
  | stopCalled (comp : String)
  | warnStopError (comp : String) (err : String)
  | debugRegistered (comp : String)
  | infoStarted
  | debugClosingInside
  | cancelCtx (cause : String)
  | shutdownComplete
  | debugStoppedOk
  | warnForcedTimeout (timeout : Nat)
  | panicked (err : String)
  deriving DecidableEq, Repr

/-- AppState mirrors the package-level variables of package app:
components, the cancellable context (represented by its cause, none while
not cancelled), closingCh (represented by whether it has been closed) and
forcefullyTimeout (nanoseconds). -/
structure AppState where
  components : List Component
  cause : Option String
  closingClosed : Bool
  forcefullyTimeout : Nat
  deriving DecidableEq, Repr

/-- timeSecond is one second in nanoseconds, matching time.Second. -/
def timeSecond : Nat := 1000000000

/-- signalCause is the cancellation cause used on the signal path of Start. -/
def signalCause : String := "app closing triggered by system call"

/-- stopCause is the cancellation cause used by Stop. -/
def stopCause : String := "app stopped"

/-- cancelCause models calling the context.CancelCauseFunc: the first call
cancels the context and records the cause; any later call is a no-op and the
first cause wins. -/
def cancelCause (s : AppState) (c : String) : AppState × List Event :=
  match s.cause with
  | some _ => (s, [])
  | none => ({ s with cause := some c }, [Event.cancelCtx c])

/-- stopOne models the body of the cleanup loop for one component: call its
Stop, and when that returns an error log a warning carrying the component
name and the error, without interrupting the loop. -/
def stopOne (c : Component) : List Event :=
  match c.stopErr with
  | none => [Event.stopCalled c.name]
  | some e => [Event.stopCalled c.name, Event.warnStopError c.name e]

/-- cleanupLoop is the trace of the for-range loop of cleanup over the
registered components, in list (registration) order. -/
def cleanupLoop : List Component → List Event
  | [] => []
  | c :: cs => stopOne c ++ cleanupLoop cs

/-- cleanup models app.cleanup: stop every registered component in
registration order, then set components to nil. -/
def cleanup (s : AppState) : AppState × List Event :=
  ({ s with components := [] }, cleanupLoop s.components)

/-- exit models app.exit: run cleanup, then panic with the given error. It
returns the panic message, the state left behind and the trace. -/
def exit (s : AppState) (err : String) : String × AppState × List Event :=
  let p := cleanup s
  (err, p.1, p.2 ++ [Event.panicked err])

/-- RegisterResult is the outcome of Register: normal return, or a panic
raised by exit (carrying the panic message, the state after the rollback
cleanup and the trace). -/
inductive RegisterResult where
  | ok (s : AppState) (tr : List Event)
  | panicked (err : String) (s : AppState) (tr : List Event)
  deriving DecidableEq, Repr

/-- Register models app.Register. A nil argument (none) runs exit with
message "given component is nil". Otherwise the component Start is called;
on error, exit runs with that exact error; on success a debug line is
logged and the component is appended to components. -/
def Register (s : AppState) (c : Option Component) : RegisterResult :=
  match c with
  | none =>
    let (err, s1, tr) := exit s "given component is nil"
    .panicked err s1 tr
  | some c =>
    match c.startErr with
    | some e =>
      let (err, s1, tr) := exit s e
      .panicked err s1 (Event.startCalled c.name :: tr)
    | none =>
      .ok { s with components := s.components ++ [c] }
        [Event.startCalled c.name, Event.debugRegistered c.name]

/-- WakeReason distinguishes which case of the select inside Start fires:
arrival of a termination signal on shutdownCh, or the run context becoming
done because it was cancelled elsewhere. -/
inductive WakeReason where
  | signal
  | ctxDone
  deriving DecidableEq, Repr

/-- Start models app.Start from the moment it blocks: it logs the started
line, wakes for the given reason (cancelling the context with the signal
cause on the signal path, logging a debug line on the context path), and
then the deferred function runs cleanup and closes closingCh. -/
def Start (s : AppState) (w : WakeReason) : AppState × List Event :=
  let (s1, tr1) :=
    match w with
    | .signal =>
      let (su, trc) := cancelCause s signalCause
      (su, [Event.infoStarted] ++ trc)
    | .ctxDone => (s, [Event.infoStarted, Event.debugClosingInside])
  let (s2, tr2) := cleanup s1
  ({ s2 with closingClosed := true }, tr1 ++ tr2 ++ [Event.shutdownComplete])

/-- stopWait models the select inside Stop: it races a receive on closingCh
against time.After(forcefullyTimeout). closeAt is the instant, measured from
the start of the wait, at which closingCh gets closed (none if never); a
channel already closed is ready at instant 0. It returns the wait duration
and the trace (a debug line when the close is observed, a warning carrying
the configured timeout when the timer fires first). -/
def stopWait (s : AppState) (closeAt : Option Nat) : Nat × List Event :=
  let ca := if s.closingClosed then some 0 else closeAt
  match ca with
  | some t =>
    if t ≤ s.forcefullyTimeout then (t, [Event.debugStoppedOk])
    else (s.forcefullyTimeout, [Event.warnForcedTimeout s.forcefullyTimeout])
  | none => (s.forcefullyTimeout, [Event.warnForcedTimeout s.forcefullyTimeout])

/-- stopCancel is the first statement of Stop: cancel the run context with
the stop cause. -/
def stopCancel (s : AppState) : AppState × List Event :=
  cancelCause s stopCause

/-- Stop models app.Stop: cancel the context with cause "app stopped", then
wait for closingCh or the forceful timeout. It returns the state, the wait
duration and the trace. -/
def Stop (s : AppState) (closeAt : Option Nat) : AppState × Nat × List Event :=
  let (s1, trc) := stopCancel s
  let (t, trw) := stopWait s1 closeAt
  (s1, t, trc ++ trw)

/-- resetState is the state produced by app.reset (and hence by init): no
registered components, a fresh uncancelled context, a fresh closingCh and a
forceful timeout of 3 seconds. -/
def resetState : AppState :=
  { components := [], cause := none, closingClosed := false,
    forcefullyTimeout := 3 * timeSecond }

/-- reset models app.reset of the current variant: it first runs cleanup on
the old state and then recreates the context, the channels and the default
timeout. -/
def reset (s : AppState) : AppState × List Event :=
  (resetState, (cleanup s).2)

/-- initApp is the state after package init, which calls reset. -/
def initApp : AppState := resetState

/-- registerAll folds Register over a list of components, stopping at the
first panic and concatenating the traces. -/
def registerAll (s : AppState) : List Component → RegisterResult
  | [] => .ok s []
  | c :: cs =>
    match Register s (some c) with
    | .ok s1 tr =>
      match registerAll s1 cs with
      | .ok s2 tr2 => .ok s2 (tr ++ tr2)
      | .panicked e s2 tr2 => .panicked e s2 (tr ++ tr2)
    | .panicked e s1 tr => .panicked e s1 tr

/-- stopEvents projects a trace to the names of the components whose Stop
was invoked, in order. -/
def stopEvents (tr : List Event) : List String :=
  tr.filterMap fun e =>
    match e with
    | .stopCalled n => some n
    | _ => none

/-- startEvents projects a trace to the names of the components whose Start
was invoked, in order. -/
def startEvents (tr : List Event) : List String :=
  tr.filterMap fun e =>
    match e with
    | .startCalled n => some n
    | _ => none

/-- completeCount counts how many times the shutdownComplete signal (the
close of closingCh) fires in a trace. -/
def completeCount (tr : List Event) : Nat :=
  tr.countP fun e =>
    match e with
    | .shutdownComplete => true
    | _ => false

/-- Op enumerates the operations of the coordinator state machine: a
registration (possibly of nil), the blocking run woken for some reason, a
stop call with a given closingCh close instant, and reset. -/
inductive Op where
  | register (c : Option Component)
  | run (w : WakeReason)
  | stop (closeAt : Option Nat)
  | reset
  deriving DecidableEq, Repr

/-- applyOp runs one operation on the state, returning the next state and
the trace of the operation. A panicking registration leaves behind the state
produced by exit. -/
def applyOp (s : AppState) : Op → AppState × List Event
  | .register c =>
    match Register s c with
    | .ok s1 tr => (s1, tr)
    | .panicked _ s1 tr => (s1, tr)
  | .run w => Start s w
  | .stop closeAt =>
    let (s1, _, tr) := Stop s closeAt
    (s1, tr)
  | .reset => reset s

/-- Reach is the set of coordinator states reachable from the init state by
any sequence of operations. -/
inductive Reach : AppState → Prop where
  | init : Reach initApp
  | step (s : AppState) (op : Op) : Reach s → Reach (applyOp s op).1

/-- execTrace is the accumulated trace of running a sequence of operations
from a given state. -/
def execTrace (s : AppState) : List Op → List Event
  | [] => []
  | op :: ops =>
    let (s1, tr) := applyOp s op
    tr ++ execTrace s1 ops

/-- isRun recognises the run operation among operations. -/
def isRun : Op → Bool
  | .run _ => true
  | _ => false

/-- regTrace is the trace left by a sequence of successful registrations. -/
def regTrace : List Component → List Event
  | [] => []
  | c :: cs => Event.startCalled c.name :: Event.debugRegistered c.name :: regTrace cs

theorem stopEvents_append (a b : List Event) :
    stopEvents (a ++ b) = stopEvents a ++ stopEvents b := by
  simp [stopEvents, List.filterMap_append]

theorem startEvents_append (a b : List Event) :
    startEvents (a ++ b) = startEvents a ++ startEvents b := by
  simp [startEvents, List.filterMap_append]

theorem completeCount_append (a b : List Event) :
    completeCount (a ++ b) = completeCount a + completeCount b := by
  simp [completeCount, List.countP_append]

theorem stopEvents_stopOne (c : Component) : stopEvents (stopOne c) = [c.name] := by
  cases h : c.stopErr <;> simp [stopOne, h, stopEvents]

theorem startEvents_stopOne (c : Component) : startEvents (stopOne c) = [] := by
  cases h : c.stopErr <;> simp [stopOne, h, startEvents]

theorem completeCount_stopOne (c : Component) : completeCount (stopOne c) = 0 := by
  cases h : c.stopErr <;> simp [stopOne, h, completeCount]

theorem stopEvents_cleanupLoop (cs : List Component) :
    stopEvents (cleanupLoop cs) = cs.map Component.name := by
  induction cs with
  | nil => rfl
  | cons c cs ih => simp [cleanupLoop, stopEvents_append, stopEvents_stopOne, ih]

theorem startEvents_cleanupLoop (cs : List Component) :
    startEvents (cleanupLoop cs) = [] := by
  induction cs with
  | nil => rfl
  | cons c cs ih => simp [cleanupLoop, startEvents_append, startEvents_stopOne, ih]

theorem completeCount_cleanupLoop (cs : List Component) :
    completeCount (cleanupLoop cs) = 0 := by
  induction cs with
  | nil => rfl
  | cons c cs ih => simp [cleanupLoop, completeCount_append, completeCount_stopOne, ih]

theorem registerAll_ok (s : AppState) (cs : List Component)
    (h : ∀ c ∈ cs, c.startErr = none) :
    registerAll s cs = .ok { s with components := s.components ++ cs } (regTrace cs) := by
  induction cs generalizing s with
  | nil => simp [registerAll, regTrace]
  | cons c cs ih =>
    have hc : c.startErr = none := h c (by simp)
    have hrest : ∀ x ∈ cs, x.startErr = none := fun x hx => h x (by simp [hx])
    simp [registerAll, Register, hc, ih _ hrest, regTrace]

theorem stopEvents_regTrace (cs : List Component) : stopEvents (regTrace cs) = [] := by
  induction cs with
  | nil => rfl
  | cons c cs ih => simp [regTrace, stopEvents, List.filterMap] at ih ⊢; exact ih

theorem startEvents_regTrace (cs : List Component) :
    startEvents (regTrace cs) = cs.map Component.name := by
  induction cs with
  | nil => rfl
  | cons c cs ih => simp [regTrace, startEvents, List.filterMap] at ih ⊢; exact ih

theorem completeCount_regTrace (cs : List Component) : completeCount (regTrace cs) = 0 := by
  induction cs with
  | nil => rfl
  | cons c cs ih => simp [regTrace, completeCount] at ih ⊢; exact ih

theorem initApp_cause : initApp.cause = none := rfl

theorem initApp_components : initApp.components = [] := rfl

theorem initApp_closing : initApp.closingClosed = false := rfl

theorem initApp_timeout : initApp.forcefullyTimeout = 3 * timeSecond := rfl

/-- Trigger distinguishes the two ways a running coordinator is shut down:
delivery of a termination signal, or a concurrent call of Stop. -/
inductive Trigger where
  | bySignal
  | byStop
  deriving DecidableEq, Repr

/-- scenario runs the whole lifecycle: register every component from the
init state, then run Start and shut it down by the given trigger. For the
signal trigger, Start wakes on shutdownCh and cancels the context itself.
For the stop trigger, Stop first cancels the context (its first statement),
Start wakes because the context is done and performs cleanup and closes
closingCh, and the wait inside Stop then observes the closed channel. The
result is the final state and the complete trace. A registration panic ends
the scenario there. -/
def scenario (comps : List Component) (t : Trigger) : AppState × List Event :=
  match registerAll initApp comps with
  | .panicked _ s1 tr => (s1, tr)
  | .ok s1 tr =>
    match t with
    | .bySignal =>
      let (s2, trr) := Start s1 .signal
      (s2, tr ++ trr)
    | .byStop =>
      let (sc, trc) := stopCancel s1
      let (s2, trr) := Start sc .ctxDone
      let (_, trw) := stopWait s2 (some 0)
      (s2, tr ++ trc ++ trr ++ trw)

/-- compA is a concrete component whose stop fails, used at witnesses. -/
def compA : Component := { name := "a", startErr := none, stopErr := some "boom" }

/-- compB is a concrete component that starts and stops cleanly. -/
def compB : Component := { name := "b", startErr := none, stopErr := none }

/-- C1: for every sequence of components whose start all succeed, running
the coordinator and then shutting down by signal or by Stop invokes stop
exactly once on every registered component, in registration (forward)
order, even when some stop calls return errors, and afterwards the
registered list is cleared. -/
theorem run_then_shutdown_stops_each_once (comps : List Component) (t : Trigger)
    (h : ∀ c ∈ comps, c.startErr = none) :
    stopEvents (scenario comps t).2 = comps.map Component.name ∧
    (scenario comps t).1.components = [] := by
  have hreg := registerAll_ok initApp comps h
  have h1 := stopEvents_regTrace comps
  have h2 := stopEvents_cleanupLoop comps
  simp only [stopEvents] at h1 h2
  cases t with
  | bySignal =>
    constructor
    · simp [scenario, hreg, Start, cancelCause, initApp_cause, initApp_components,
        cleanup, stopEvents, h1, h2]
    · simp [scenario, hreg, Start, cancelCause, initApp_cause, cleanup]
  | byStop =>
    constructor
    · simp [scenario, hreg, Start, stopCancel, cancelCause, initApp_cause,
        initApp_components, cleanup, stopWait, stopEvents, h1, h2]
    · simp [scenario, hreg, Start, stopCancel, cancelCause, initApp_cause,
        cleanup, stopWait]

/-- Witness for C1 at two concrete components, the first of which fails its
stop call, shut down by Stop. -/
theorem run_then_shutdown_stops_each_once_witness :
    stopEvents (scenario [compA, compB] .byStop).2 = ["a", "b"] ∧
    (scenario [compA, compB] .byStop).1.components = [] := by
  have h := run_then_shutdown_stops_each_once [compA, compB] .byStop (by decide)
  simpa [compA, compB] using h

/-- compFail is a concrete component whose start fails. -/
def compFail : Component := { name := "f", startErr := some "bad start", stopErr := none }

/-- stateWithA is a concrete coordinator state holding one registered
component, used at witnesses and counterexamples. -/
def stateWithA : AppState :=
  { components := [compA], cause := none, closingClosed := false,
    forcefullyTimeout := 3 * timeSecond }

/-- C2: when the start of a component fails during Register, every
previously registered component receives exactly one stop call (in
registration order), the registered list is cleared, and Register panics
with exactly the error the start call returned. -/
theorem register_start_error_rolls_back (s : AppState) (c : Component) (e : String)
    (h : c.startErr = some e) :
    Register s (some c) =
      .panicked e { s with components := [] }
        (Event.startCalled c.name :: (cleanupLoop s.components ++ [Event.panicked e])) ∧
    stopEvents
        (Event.startCalled c.name :: (cleanupLoop s.components ++ [Event.panicked e])) =
      s.components.map Component.name := by
  have h2 := stopEvents_cleanupLoop s.components
  simp only [stopEvents] at h2
  constructor
  · simp [Register, h, exit, cleanup]
  · simp [stopEvents, h2]

/-- Witness for C2: a failing start at a state holding one component rolls
that component back and panics with the originating error. -/
theorem register_start_error_rolls_back_witness :
    Register stateWithA (some compFail) =
      .panicked "bad start"
        { components := [], cause := none, closingClosed := false,
          forcefullyTimeout := 3 * timeSecond }
        [Event.startCalled "f", Event.stopCalled "a", Event.warnStopError "a" "boom",
          Event.panicked "bad start"] ∧
    stopEvents
        [Event.startCalled "f", Event.stopCalled "a", Event.warnStopError "a" "boom",
          Event.panicked "bad start"] = ["a"] := by
  have h := register_start_error_rolls_back stateWithA compFail "bad start" rfl
  simpa [stateWithA, compA, compFail, cleanupLoop, stopOne] using h

/-- C3 counterexample: registering nil at a state that already holds a
registered component does invoke that component's stop (exit runs cleanup
before panicking), contradicting the claim that no previously registered
component's stop is invoked on the nil path. -/
theorem register_nil_counterexample :
    Register stateWithA none =
      .panicked "given component is nil"
        { components := [], cause := none, closingClosed := false,
          forcefullyTimeout := 3 * timeSecond }
        [Event.stopCalled "a", Event.warnStopError "a" "boom",
          Event.panicked "given component is nil"] ∧
    Event.stopCalled "a" ∈
      [Event.stopCalled "a", Event.warnStopError "a" "boom",
        Event.panicked "given component is nil"] := by
  constructor
  · simp [Register, exit, cleanup, stateWithA, compA, cleanupLoop, stopOne]
  · simp

/-- C3 amended: registering a nil component panics with message "given
component is nil" without calling the start of any component, but it first
runs the teardown path, so every previously registered component receives
one stop call in registration order and the registered list is cleared;
nothing is stopped only when the registered list is empty. -/
theorem register_nil_aborts_after_teardown (s : AppState) :
    Register s none =
      .panicked "given component is nil" { s with components := [] }
        (cleanupLoop s.components ++ [Event.panicked "given component is nil"]) ∧
    startEvents
        (cleanupLoop s.components ++ [Event.panicked "given component is nil"]) = [] ∧
    stopEvents
        (cleanupLoop s.components ++ [Event.panicked "given component is nil"]) =
      s.components.map Component.name := by
  have h1 := startEvents_cleanupLoop s.components
  have h2 := stopEvents_cleanupLoop s.components
  simp only [startEvents] at h1
  simp only [stopEvents] at h2
  refine ⟨by simp [Register, exit, cleanup], ?_, ?_⟩
  · simp [startEvents, h1]
  · simp [stopEvents, h2]

theorem completeCount_nil : completeCount [] = 0 := rfl

theorem completeCount_cons (e : Event) (tr : List Event) :
    completeCount (e :: tr) =
      (match e with | Event.shutdownComplete => 1 | _ => 0) + completeCount tr := by
  cases e <;> simp [completeCount, List.countP_cons, Nat.add_comm]

theorem completeCount_applyOp (s : AppState) (op : Op) :
    completeCount (applyOp s op).2 = if isRun op then 1 else 0 := by
  cases op with
  | register c =>
    cases c with
    | none =>
      simp [applyOp, Register, exit, cleanup, isRun, completeCount_append,
        completeCount_cleanupLoop, completeCount_cons, completeCount_nil]
    | some c =>
      cases h : c.startErr <;>
        simp [applyOp, Register, h, exit, cleanup, isRun, completeCount_append,
          completeCount_cleanupLoop, completeCount_cons, completeCount_nil]
  | run w =>
    cases w <;> cases h : s.cause <;>
      simp [applyOp, Start, cancelCause, h, cleanup, isRun, completeCount_append,
        completeCount_cleanupLoop, completeCount_cons, completeCount_nil]
  | stop closeAt =>
    cases h : s.cause <;> cases hc : s.closingClosed <;> cases closeAt <;>
      simp [applyOp, Stop, stopCancel, cancelCause, h, stopWait, hc, isRun,
        completeCount_append, completeCount_cons, completeCount_nil] <;>
      split <;>
      simp [completeCount_cons, completeCount_nil]
  | reset =>
    simp [applyOp, reset, cleanup, completeCount_cleanupLoop, isRun]

theorem completeCount_execTrace (s : AppState) (ops : List Op) :
    completeCount (execTrace s ops) = ops.countP isRun := by
  induction ops generalizing s with
  | nil => rfl
  | cons op ops ih =>
    simp only [execTrace, List.countP_cons, completeCount_append,
      completeCount_applyOp, ih]
    cases hr : isRun op <;> simp [hr, Nat.add_comm]

/-- C4: whenever Start exits its wait, woken by a signal or by independent
cancellation of the run context, it unconditionally runs cleanup over all
registered components and then fires shutdownComplete; and over any
operation sequence containing at most one run of Start, shutdownComplete
fires at most once. -/
theorem start_always_cleans_and_completes_once :
    (∀ (s : AppState) (w : WakeReason), (w = .ctxDone → s.cause ≠ none) →
      ∃ pre, (Start s w).2 = pre ++ (cleanupLoop s.components ++ [Event.shutdownComplete]) ∧
        stopEvents pre = [] ∧ completeCount pre = 0 ∧
        (Start s w).1.components = [] ∧ (Start s w).1.closingClosed = true ∧
        completeCount (Start s w).2 = 1) ∧
    (∀ (s : AppState) (ops : List Op), ops.countP isRun ≤ 1 →
      completeCount (execTrace s ops) ≤ 1) := by
  constructor
  · intro s w hw
    cases w with
    | signal =>
      cases h : s.cause with
      | none =>
        refine ⟨[Event.infoStarted, Event.cancelCtx signalCause], ?_, by decide, by decide, ?_, ?_, ?_⟩ <;>
          simp [Start, cancelCause, h, cleanup, completeCount_append,
            completeCount_cleanupLoop, completeCount_cons, completeCount_nil]
      | some c0 =>
        refine ⟨[Event.infoStarted], ?_, by decide, by decide, ?_, ?_, ?_⟩ <;>
          simp [Start, cancelCause, h, cleanup, completeCount_append,
            completeCount_cleanupLoop, completeCount_cons, completeCount_nil]
    | ctxDone =>
      refine ⟨[Event.infoStarted, Event.debugClosingInside], ?_, by decide, by decide, ?_, ?_, ?_⟩ <;>
        simp [Start, cleanup, completeCount_append, completeCount_cleanupLoop,
          completeCount_cons, completeCount_nil]
  · intro s ops hops
    rw [completeCount_execTrace]
    exact hops

/-- Witness for C4 at a concrete state with one registered component woken
by a signal, and a concrete three-operation execution. -/
theorem start_always_cleans_and_completes_once_witness :
    (∃ pre, (Start stateWithA .signal).2 =
        pre ++ (cleanupLoop stateWithA.components ++ [Event.shutdownComplete]) ∧
      stopEvents pre = [] ∧ completeCount pre = 0 ∧
      (Start stateWithA .signal).1.components = [] ∧
      (Start stateWithA .signal).1.closingClosed = true ∧
      completeCount (Start stateWithA .signal).2 = 1) ∧
    completeCount
        (execTrace initApp [Op.register (some compB), Op.run .signal, Op.stop none]) ≤ 1 :=
  ⟨start_always_cleans_and_completes_once.1 stateWithA .signal
      (fun h => WakeReason.noConfusion h),
    start_always_cleans_and_completes_once.2 initApp
      [Op.register (some compB), Op.run .signal, Op.stop none] (by decide)⟩

theorem stopEvents_nil : stopEvents [] = [] := rfl

theorem stopEvents_cons (e : Event) (tr : List Event) :
    stopEvents (e :: tr) =
      (match e with | Event.stopCalled n => [n] | _ => []) ++ stopEvents tr := by
  cases e <;> simp [stopEvents]

/-- C5: Stop waits for closingCh or the grace period, whichever comes
first; the default grace period set by reset is 3 seconds; when the grace
period elapses first, Stop logs a forced-timeout warning carrying the
configured duration and returns after exactly the grace period, without
invoking any component stop itself and leaving the registered list
untouched, while a later exit of Start still stops every registered
component. -/
theorem stop_wait_bounded_by_grace_period (s : AppState) (t : Nat)
    (hnc : s.closingClosed = false) :
    resetState.forcefullyTimeout = 3 * timeSecond ∧
    (t ≤ s.forcefullyTimeout →
      Stop s (some t) = ((stopCancel s).1, t, (stopCancel s).2 ++ [Event.debugStoppedOk])) ∧
    (s.forcefullyTimeout < t →
      Stop s (some t) =
        ((stopCancel s).1, s.forcefullyTimeout,
          (stopCancel s).2 ++ [Event.warnForcedTimeout s.forcefullyTimeout])) ∧
    Stop s none =
      ((stopCancel s).1, s.forcefullyTimeout,
        (stopCancel s).2 ++ [Event.warnForcedTimeout s.forcefullyTimeout]) ∧
    (Stop s (some t)).1.components = s.components ∧
    stopEvents (Stop s (some t)).2.2 = [] ∧
    (∀ w, stopEvents (Start (Stop s (some t)).1 w).2 = s.components.map Component.name) := by
  have h2 := stopEvents_cleanupLoop s.components
  refine ⟨rfl, ?_, ?_, ?_, ?_, ?_, ?_⟩
  · intro ht
    cases h : s.cause <;>
      simp [Stop, stopCancel, cancelCause, h, stopWait, hnc, ht]
  · intro ht
    cases h : s.cause <;>
      simp [Stop, stopCancel, cancelCause, h, stopWait, hnc, Nat.not_le.mpr ht]
  · cases h : s.cause <;>
      simp [Stop, stopCancel, cancelCause, h, stopWait, hnc]
  · cases h : s.cause <;>
      simp [Stop, stopCancel, cancelCause, h]
  · cases h : s.cause <;>
      (simp [Stop, stopCancel, cancelCause, h, stopWait, hnc]; split) <;>
      simp [stopEvents_cons, stopEvents_nil]
  · intro w
    cases h : s.cause with
    | none =>
      cases w <;>
        simp [Stop, stopCancel, cancelCause, h, Start, cleanup, stopEvents_append,
          stopEvents_cons, stopEvents_nil, h2]
    | some c0 =>
      cases w <;>
        simp [Stop, stopCancel, cancelCause, h, Start, cleanup, stopEvents_append,
          stopEvents_cons, stopEvents_nil, h2]

/-- Witness for C5: at a concrete uncancelled state with one registered
component and no close of closingCh, Stop returns after exactly the default
3 second grace period with the forced-timeout warning. -/
theorem stop_wait_bounded_by_grace_period_witness :
    Stop stateWithA none =
      ({ components := [compA], cause := some stopCause, closingClosed := false,
          forcefullyTimeout := 3 * timeSecond },
        3 * timeSecond,
        [Event.cancelCtx stopCause, Event.warnForcedTimeout (3 * timeSecond)]) := by
  have h := stop_wait_bounded_by_grace_period stateWithA 5 rfl
  simpa [stateWithA, stopCancel, cancelCause] using h.2.2.2.1

/-- C6: the signal path of Start and Stop cancel the run context with the
distinct causes "app closing triggered by system call" and "app stopped"
respectively, and whichever cancellation happens first determines the cause
observed afterwards. -/
theorem cancel_causes_distinct_first_wins (s : AppState) (h : s.cause = none) :
    signalCause ≠ stopCause ∧
    (Start s .signal).1.cause = some signalCause ∧
    (stopCancel s).1.cause = some stopCause ∧
    (stopCancel (Start s .signal).1).1.cause = some signalCause ∧
    (Start (stopCancel s).1 .signal).1.cause = some stopCause := by
  refine ⟨by decide, ?_, ?_, ?_, ?_⟩ <;>
    simp [Start, stopCancel, cancelCause, h, cleanup]

/-- Witness for C6 at the init state. -/
theorem cancel_causes_distinct_first_wins_witness :
    signalCause ≠ stopCause ∧
    (Start initApp .signal).1.cause = some signalCause ∧
    (stopCancel initApp).1.cause = some stopCause ∧
    (stopCancel (Start initApp .signal).1).1.cause = some signalCause ∧
    (Start (stopCancel initApp).1 .signal).1.cause = some stopCause :=
  cancel_causes_distinct_first_wins initApp rfl

/-- C7: a second call of Stop on an already-cancelled coordinator never
invokes any component stop itself, leaves the cause set by the first
cancellation unchanged (and the whole state unchanged), and when the first
shutdown already completed (closingCh closed) its wait observes
shutdownComplete immediately, returning after a zero wait. -/
theorem stop_idempotent_second_call (s : AppState) (c0 : String) (closeAt : Option Nat)
    (hc : s.cause = some c0) :
    stopEvents (Stop s closeAt).2.2 = [] ∧
    (Stop s closeAt).1.cause = some c0 ∧
    (Stop s closeAt).1 = s ∧
    (s.closingClosed = true → Stop s closeAt = (s, 0, [Event.debugStoppedOk])) := by
  refine ⟨?_, ?_, ?_, ?_⟩
  · cases hcl : s.closingClosed <;> cases closeAt <;>
      (simp [Stop, stopCancel, cancelCause, hc, stopWait, hcl]; try split) <;>
      simp [stopEvents_cons, stopEvents_nil]
  · simp [Stop, stopCancel, cancelCause, hc]
  · simp [Stop, stopCancel, cancelCause, hc]
  · intro hcl
    simp [Stop, stopCancel, cancelCause, hc, stopWait, hcl]

/-- Witness for C7 at a concrete cancelled state whose shutdown already
completed. -/
theorem stop_idempotent_second_call_witness :
    stopEvents (Stop ⟨[], some stopCause, true, 3 * timeSecond⟩ none).2.2 = [] ∧
    (Stop ⟨[], some stopCause, true, 3 * timeSecond⟩ none).1.cause = some stopCause ∧
    (Stop ⟨[], some stopCause, true, 3 * timeSecond⟩ none).1 =
      ⟨[], some stopCause, true, 3 * timeSecond⟩ ∧
    ((⟨[], some stopCause, true, 3 * timeSecond⟩ : AppState).closingClosed = true →
      Stop ⟨[], some stopCause, true, 3 * timeSecond⟩ none =
        (⟨[], some stopCause, true, 3 * timeSecond⟩, 0, [Event.debugStoppedOk])) :=
  stop_idempotent_second_call ⟨[], some stopCause, true, 3 * timeSecond⟩ stopCause none rfl

/-- C8: in every reachable coordinator state every component in the
registered list has a start that returned without error; every operation
either only appends to the registered list or clears it entirely while
stopping every listed component in order (the cleanup routine); and a
successful Register appends exactly its component, whose start was called
(first event of the trace) and returned without error. -/
theorem registered_only_started_and_cleanup_clears :
    (∀ s, Reach s → ∀ c ∈ s.components, c.startErr = none) ∧
    (∀ (s : AppState) (op : Op),
      (∃ tail, (applyOp s op).1.components = s.components ++ tail) ∨
      ((applyOp s op).1.components = [] ∧
        stopEvents (applyOp s op).2 = s.components.map Component.name)) ∧
    (∀ (s : AppState) (c : Component) (s1 : AppState) (tr : List Event),
      Register s (some c) = .ok s1 tr →
      c.startErr = none ∧ s1.components = s.components ++ [c] ∧
      tr.head? = some (Event.startCalled c.name)) := by
  refine ⟨?_, ?_, ?_⟩
  · intro s h
    induction h with
    | init => intro c hc; simp [initApp, resetState] at hc
    | step s op hs ih =>
      intro x hx
      cases op with
      | register c =>
        cases c with
        | none => simp [applyOp, Register, exit, cleanup] at hx
        | some c =>
          cases hse : c.startErr with
          | some e => simp [applyOp, Register, hse, exit, cleanup] at hx
          | none =>
            simp [applyOp, Register, hse] at hx
            rcases hx with hx | hx
            · exact ih x hx
            · rw [hx]; exact hse
      | run w =>
        cases w with
        | signal =>
          cases hcau : s.cause <;>
            simp [applyOp, Start, cancelCause, hcau, cleanup] at hx
        | ctxDone => simp [applyOp, Start, cleanup] at hx
      | stop closeAt =>
        cases hcau : s.cause <;>
          · simp [applyOp, Stop, stopCancel, cancelCause, hcau] at hx
            exact ih x hx
      | reset => simp [applyOp, reset, resetState] at hx
  · intro s op
    have h2 := stopEvents_cleanupLoop s.components
    cases op with
    | register c =>
      cases c with
      | none =>
        refine Or.inr ⟨by simp [applyOp, Register, exit, cleanup], ?_⟩
        simp [applyOp, Register, exit, cleanup, stopEvents_append, stopEvents_cons,
          stopEvents_nil, h2]
      | some c =>
        cases hse : c.startErr with
        | some e =>
          refine Or.inr ⟨by simp [applyOp, Register, hse, exit, cleanup], ?_⟩
          simp [applyOp, Register, hse, exit, cleanup, stopEvents_append,
            stopEvents_cons, stopEvents_nil, h2]
        | none =>
          exact Or.inl ⟨[c], by simp [applyOp, Register, hse]⟩
    | run w =>
      refine Or.inr ⟨?_, ?_⟩
      · cases w with
        | signal =>
          cases hcau : s.cause <;>
            simp [applyOp, Start, cancelCause, hcau, cleanup]
        | ctxDone => simp [applyOp, Start, cleanup]
      · cases w with
        | signal =>
          cases hcau : s.cause <;>
            simp [applyOp, Start, cancelCause, hcau, cleanup, stopEvents_append,
              stopEvents_cons, stopEvents_nil, h2]
        | ctxDone =>
          simp [applyOp, Start, cleanup, stopEvents_append, stopEvents_cons,
            stopEvents_nil, h2]
    | stop closeAt =>
      refine Or.inl ⟨[], ?_⟩
      cases hcau : s.cause <;>
        simp [applyOp, Stop, stopCancel, cancelCause, hcau]
    | reset =>
      refine Or.inr ⟨by simp [applyOp, reset, resetState], ?_⟩
      simp [applyOp, reset, cleanup, stopEvents_append, stopEvents_cons,
        stopEvents_nil, h2]
  · intro s c s1 tr hreg
    cases hse : c.startErr with
    | some e => simp [Register, hse] at hreg
    | none =>
      simp [Register, hse] at hreg
      exact ⟨rfl, by rw [← hreg.1], by rw [← hreg.2]; rfl⟩

/-- Witness for C8: the init state satisfies the invariant, a concrete stop
operation only appends (nothing), and a concrete successful registration
appends its component after a successful start. -/
theorem registered_only_started_and_cleanup_clears_witness :
    (∀ c ∈ initApp.components, c.startErr = none) ∧
    ((∃ tail, (applyOp stateWithA (Op.stop none)).1.components =
        stateWithA.components ++ tail) ∨
      ((applyOp stateWithA (Op.stop none)).1.components = [] ∧
        stopEvents (applyOp stateWithA (Op.stop none)).2 =
          stateWithA.components.map Component.name)) ∧
    (compB.startErr = none ∧
      ({ components := [compA, compB], cause := none, closingClosed := false,
          forcefullyTimeout := 3 * timeSecond } : AppState).components =
        stateWithA.components ++ [compB] ∧
      ([Event.startCalled "b", Event.debugRegistered "b"] : List Event).head? =
        some (Event.startCalled compB.name)) :=
  ⟨registered_only_started_and_cleanup_clears.1 initApp Reach.init,
    registered_only_started_and_cleanup_clears.2.1 stateWithA (Op.stop none),
    registered_only_started_and_cleanup_clears.2.2 stateWithA compB
      { components := [compA, compB], cause := none, closingClosed := false,
        forcefullyTimeout := 3 * timeSecond }
      [Event.startCalled "b", Event.debugRegistered "b"] (by decide)⟩

/-- C9: registration does not deduplicate: a component whose start succeeds
can be registered twice, its start is called once per registration, the
registered list holds it twice, and the cleanup routine calls its stop
twice. -/
theorem register_permits_duplicates (c : Component) (h : c.startErr = none) :
    registerAll initApp [c, c] =
      .ok { initApp with components := [c, c] }
        [Event.startCalled c.name, Event.debugRegistered c.name,
          Event.startCalled c.name, Event.debugRegistered c.name] ∧
    startEvents
        [Event.startCalled c.name, Event.debugRegistered c.name,
          Event.startCalled c.name, Event.debugRegistered c.name] = [c.name, c.name] ∧
    stopEvents (cleanup { initApp with components := [c, c] }).2 =
      [c.name, c.name] := by
  have hreg := registerAll_ok initApp [c, c] (by intro x hx; simp at hx; rw [hx]; exact h)
  refine ⟨?_, ?_, ?_⟩
  · simpa [regTrace, initApp_components] using hreg
  · simp [startEvents]
  · simp [cleanup, stopEvents_cleanupLoop]

/-- Witness for C9 at a concrete component. -/
theorem register_permits_duplicates_witness :
    registerAll initApp [compB, compB] =
      .ok { initApp with components := [compB, compB] }
        [Event.startCalled "b", Event.debugRegistered "b",
          Event.startCalled "b", Event.debugRegistered "b"] ∧
    startEvents
        [Event.startCalled "b", Event.debugRegistered "b",
          Event.startCalled "b", Event.debugRegistered "b"] = ["b", "b"] ∧
    stopEvents (cleanup { initApp with components := [compB, compB] }).2 =
      ["b", "b"] := by
  have h := register_permits_duplicates compB rfl
  simpa [compB] using h

/-- C10: Stop never invokes any component stop itself and leaves the
registered list untouched; when components are registered but Start is
never run, Stop cancels the context with the stop cause, nothing ever
closes closingCh, so it waits the whole default grace period, returns by
the forced-timeout branch, and no registered component stop is ever
called. -/
theorem stop_never_invokes_component_stop (s : AppState) (comps : List Component)
    (closeAt : Option Nat) (h : ∀ c ∈ comps, c.startErr = none) :
    stopEvents (Stop s closeAt).2.2 = [] ∧
    (Stop s closeAt).1.components = s.components ∧
    (registerAll initApp comps = .ok { initApp with components := comps } (regTrace comps) ∧
      Stop { initApp with components := comps } none =
        ({ initApp with components := comps, cause := some stopCause },
          3 * timeSecond,
          [Event.cancelCtx stopCause, Event.warnForcedTimeout (3 * timeSecond)]) ∧
      stopEvents (regTrace comps ++
        [Event.cancelCtx stopCause, Event.warnForcedTimeout (3 * timeSecond)]) = []) := by
  have hr := stopEvents_regTrace comps
  refine ⟨?_, ?_, ?_, ?_, ?_⟩
  · cases hcau : s.cause <;> cases hcl : s.closingClosed <;> cases closeAt <;>
      (simp [Stop, stopCancel, cancelCause, hcau, stopWait, hcl]; try split) <;>
      simp [stopEvents_cons, stopEvents_nil]
  · cases hcau : s.cause <;> simp [Stop, stopCancel, cancelCause, hcau]
  · simpa [initApp_components] using registerAll_ok initApp comps h
  · simp [Stop, stopCancel, cancelCause, initApp, resetState, stopWait]
  · simp [stopEvents_append, stopEvents_cons, stopEvents_nil, hr]

/-- Witness for C10 at a concrete state and one concrete component. -/
theorem stop_never_invokes_component_stop_witness :
    stopEvents (Stop stateWithA (some 5)).2.2 = [] ∧
    (Stop stateWithA (some 5)).1.components = stateWithA.components ∧
    (registerAll initApp [compA] =
        .ok { initApp with components := [compA] } (regTrace [compA]) ∧
      Stop { initApp with components := [compA] } none =
        ({ initApp with components := [compA], cause := some stopCause },
          3 * timeSecond,
          [Event.cancelCtx stopCause, Event.warnForcedTimeout (3 * timeSecond)]) ∧
      stopEvents (regTrace [compA] ++
        [Event.cancelCtx stopCause, Event.warnForcedTimeout (3 * timeSecond)]) = []) :=
  stop_never_invokes_component_stop stateWithA [compA] (some 5) (by decide)

end GoCore.App
